import Mathlib

/-!
Shallow embedding of the ideaflash local persistence + synchronization layer.

Sources embedded here:
* the canonical IndexedDB record store keyed by `idea_flash_id`
  (src/unnamed/part_001: `validateNote`, `addNote`, `updateNote`, `deleteNote`,
  `getNotes`, `clearAllNotes`);
* the earlier wrapper variant keyed by a generated `id`
  (src/lib/indexeddb-database.ts: `addNote`);
* the zustand notes store (src/lib/store.ts: `addNote`, `updateNote`,
  `deleteNote`, `loadNotes`, `mergeWithApi`);
* `generateIdeaFlashId` (src/lib/utils.ts).

Modelling conventions: ISO-8601 timestamps become `Nat` clock readings (their
lexicographic order agrees with time order); each call of `Date.now()` reads an
explicit clock value.  Fallible operations return `Except DbErr`.  The remote
service reached through the HTTP client is an external collaborator; its state
is modelled from the spec's interface (a note set keyed by the portable
`idea_flash_id`).  Network failure of a push is modelled by a set of portable
ids whose `createPost` rejects.
-/

namespace IdeaFlash

/-- The persisted note record (interface `Note` in src/unnamed/part_001):
`id`, `title`, `content`, `created_at`, `updated_at`, `idea_flash_id`. -/
structure Note where
  id : String
  title : String
  content : String
  created_at : Nat
  updated_at : Nat
  idea_flash_id : String
deriving DecidableEq, Repr

/-- A note as held by the remote service: the fields carried by
`POST /posts {title, content, idea_flash_id}`. -/
structure RNote where
  title : String
  content : String
  idea_flash_id : String
deriving DecidableEq, Repr

/-- A partial update (`Partial<Omit<Note, "id" | "created_at">>`) restricted to
the fields the claims exercise; `none` models an absent key. -/
structure NotePatch where
  title : Option String := none
  content : Option String := none
deriving DecidableEq, Repr

/-- Error taxonomy of the record store's rejections. -/
inductive DbErr
  | validation
  | duplicateKey
  | notFound
deriving DecidableEq, Repr

deriving instance DecidableEq for Except

/-- JS `String.prototype.trim`: strip leading and trailing whitespace
(modelled on the character list so that it evaluates by kernel reduction). -/
def jsTrim (s : String) : String :=
  ⟨((s.data.dropWhile Char.isWhitespace).reverse.dropWhile Char.isWhitespace).reverse⟩

/-- JS blank test `!x?.trim()`: the field is absent, or trims to the empty
string. -/
def blankOpt (o : Option String) : Bool := jsTrim (o.getD "") = ""

/-- `validateNote` (part_001 lines 70-74): throws iff title and content are
both absent or whitespace-only; `true` means validation passes. -/
def validateNoteOk (title content : Option String) : Bool :=
  !(blankOpt title && blankOpt content)

/-- `generateIdeaFlashId` (src/lib/utils.ts): `` `${Date.now()}_${userId || "anonymous"}` ``.
The empty string is falsy in JS, hence also maps to the anonymous marker. -/
def generateIdeaFlashId (now : Nat) (userId : Option String) : String :=
  toString now ++ "_" ++
    (match userId with
     | some u => if u = "" then "anonymous" else u
     | none => "anonymous")

/-- Substring search on character lists, for JS `String.prototype.includes`. -/
def hasInfixAux (pat : List Char) : List Char → Bool
  | [] => pat.isEmpty
  | c :: rest => pat.isPrefixOf (c :: rest) || hasInfixAux pat rest

/-- JS `s.includes(pat)`. -/
def strIncludes (s pat : String) : Bool := hasInfixAux pat.toList s.toList

/-- `localNote.idea_flash_id.includes("_anonymous")` (store.ts line 245). -/
def isAnonymousNote (n : Note) : Bool := strIncludes n.idea_flash_id "_anonymous"

/-- Portable id of a local record. -/
def nfid (n : Note) : String := n.idea_flash_id

/-- Portable id of a remote record. -/
def rfid (r : RNote) : String := r.idea_flash_id

/-- Observable content of a local record: portable id, title, content. -/
def proj (n : Note) : String × String × String := (n.idea_flash_id, n.title, n.content)

/-- Observable content of a remote record. -/
def projR (r : RNote) : String × String × String := (r.idea_flash_id, r.title, r.content)

/-- A local record passing the store's validation. -/
def validN (n : Note) : Bool := validateNoteOk (some n.title) (some n.content)

/-- A remote record that would pass the store's validation when adopted. -/
def validR (r : RNote) : Bool := validateNoteOk (some r.title) (some r.content)

/-! ## Record store, canonical variant (src/unnamed/part_001)

The object store is keyed by `idea_flash_id` (`keyPath: "idea_flash_id"`); the
database is the list of stored records.  IndexedDB `add` rejects on an existing
key with a `ConstraintError`, modelled as `DbErr.duplicateKey`. -/

/-- `addNote` (part_001 lines 76-97): validate, stamp both timestamps with the
current time, use the portable id as `id`, and `add` (rejecting on a duplicate
key). -/
def dbAddNote (db : List Note) (title content flashId : String) (now : Nat) :
    Except DbErr (List Note × Note) :=
  if ¬ validateNoteOk (some title) (some content) then .error .validation
  else if db.any (fun n => n.idea_flash_id = flashId) then .error .duplicateKey
  else
    let n : Note :=
      { id := flashId, title := title, content := content,
        created_at := now, updated_at := now, idea_flash_id := flashId }
    .ok (db ++ [n], n)

/-- `updateNote` (part_001 lines 99-131): validate the supplied partial, fetch
by key (not-found rejects), spread the partial over the existing record, stamp
`updated_at`, and `put` the merged record back. -/
def dbUpdateNote (db : List Note) (flashId : String) (p : NotePatch) (now : Nat) :
    Except DbErr (List Note × Note) :=
  if ¬ validateNoteOk p.title p.content then .error .validation
  else
    match db.find? (fun n => n.idea_flash_id = flashId) with
    | none => .error .notFound
    | some existing =>
      let updated : Note :=
        { existing with
          title := p.title.getD existing.title,
          content := p.content.getD existing.content,
          updated_at := now }
      .ok (db.map (fun n => if n.idea_flash_id = flashId then updated else n), updated)

/-- `deleteNote` (part_001 lines 133-141): IndexedDB `delete` fulfills whether
or not the key is present, so the operation is total. -/
def dbDeleteNote (db : List Note) (flashId : String) : List Note :=
  db.filter (fun n => ¬ (n.idea_flash_id = flashId))

/-- Cursor order of the `created_at` index walked with direction `"prev"`:
newer records come first.  The ordering claims below all assume pairwise
distinct `created_at` values, so ties are unobservable in the theorems. -/
def noteDescOrder (a b : Note) : Prop := b.created_at ≤ a.created_at

instance : DecidableRel noteDescOrder := fun a b => Nat.decLe b.created_at a.created_at

instance : IsTotal Note noteDescOrder := ⟨fun a b => Nat.le_total b.created_at a.created_at⟩

instance : IsTrans Note noteDescOrder := ⟨fun _ _ _ h1 h2 => Nat.le_trans h2 h1⟩

/-- The record sequence produced by the descending `created_at` cursor. -/
def sortNotesDesc (db : List Note) : List Note := List.insertionSort noteDescOrder db

/-- `getNotes` (part_001 lines 143-165): walk the `created_at` index newest
first; the cursor guard is `!limit || count < limit`, so an absent limit and
the limit `0` both mean "no limit" (JS falsiness of `0`). -/
def dbGetNotes (db : List Note) (limit : Option Nat) : List Note :=
  match limit with
  | none => sortNotesDesc db
  | some k => if k = 0 then sortNotesDesc db else (sortNotesDesc db).take k

/-- `clearAllNotes` (part_001 lines 168-179): `store.clear()`. -/
def dbClearAllNotes (_db : List Note) : List Note := []

/-- `addNote` of the earlier wrapper variant (src/lib/indexeddb-database.ts
lines 66-88): the store is keyed by a generated `id`
(`Date.now().toString(36) + Math.random().toString(36).substr(2)`, passed in
here as `genId`), and the caller supplies `idea_flash_id` as a plain field. -/
def libAddNote (db : List Note) (genId : String) (title content flashId : String)
    (now : Nat) : Except DbErr (List Note × Note) :=
  if ¬ validateNoteOk (some title) (some content) then .error .validation
  else if db.any (fun n => n.id = genId) then .error .duplicateKey
  else
    let n : Note :=
      { id := genId, title := title, content := content,
        created_at := now, updated_at := now, idea_flash_id := flashId }
    .ok (db ++ [n], n)

/-! ## Remote service model

Modelled from the spec: the Remote Client Contract is an external collaborator
(`createNote`/`listNotes`/`updateNote`/`deleteNote` keyed by the portable id,
spec sections 4.3 and 6); the portable id is the idempotent external identity,
so the server's note set is keyed by `idea_flash_id`. -/

/-- `POST /posts`: insert, or replace the record carrying the same portable id. -/
def remoteCreatePost (remote : List RNote) (r : RNote) : List RNote :=
  if remote.any (fun x => x.idea_flash_id = r.idea_flash_id) then
    remote.map (fun x => if x.idea_flash_id = r.idea_flash_id then r else x)
  else remote ++ [r]

/-- `PUT /posts/:idea_flash_id`: replace title and content at the portable id. -/
def remoteUpdatePost (remote : List RNote) (flashId title content : String) :
    List RNote :=
  remote.map (fun x =>
    if x.idea_flash_id = flashId then { x with title := title, content := content }
    else x)

/-- `DELETE /posts/:idea_flash_id`. -/
def remoteDeletePost (remote : List RNote) (flashId : String) : List RNote :=
  remote.filter (fun x => ¬ (x.idea_flash_id = flashId))

/-! ## Application state coordinator (src/lib/store.ts)

`SysState` bundles the store's reactive fields (`notes`, `error`, `isLoading`),
the record store contents, the remote service's state, and the clock.  A
`remoteFails` flag on each action models the matching best-effort network call
rejecting. -/

structure SysState where
  db : List Note
  notes : List Note
  error : Option String
  isLoading : Bool
  remote : List RNote
  clock : Nat
deriving DecidableEq, Repr

/-- `loadNotes` (store.ts lines 34-57): read the store newest-first into the
in-memory list. -/
def loadNotes (s : SysState) : SysState :=
  { s with notes := dbGetNotes s.db none, isLoading := false, error := none }

/-- `addNote` (store.ts lines 59-97): mint a portable id from the current user,
write locally first, prepend the new record to the in-memory list, then — when
the API is configured and the user authenticated — best-effort `createPost`
whose rejection is swallowed by an empty catch. -/
def storeAddNote (isApiEnabled isAuthenticated : Bool) (user : Option String)
    (remoteFails : Bool) (title content : String) (s : SysState) : SysState :=
  let ideaFlashId := generateIdeaFlashId s.clock user
  match dbAddNote s.db title content ideaFlashId (s.clock + 1) with
  | .error _ => { s with isLoading := false, error := some "Failed to add note" }
  | .ok (db1, newNote) =>
    let s1 : SysState :=
      { s with
        db := db1, notes := newNote :: s.notes,
        isLoading := false, error := none, clock := s.clock + 2 }
    if isApiEnabled && isAuthenticated then
      if remoteFails then s1
      else { s1 with remote := remoteCreatePost s1.remote ⟨title, content, ideaFlashId⟩ }
    else s1

/-- `updateNote` (store.ts lines 99-136): local write first, splice the updated
record into the in-memory list, then best-effort `updatePost` (its payload uses
JS `||`, falling back to the updated record's fields on absent or empty partial
fields); remote rejection is caught and logged. -/
def storeUpdateNote (isApiEnabled isAuthenticated : Bool) (remoteFails : Bool)
    (flashId : String) (p : NotePatch) (s : SysState) : SysState :=
  match dbUpdateNote s.db flashId p (s.clock + 1) with
  | .error _ => { s with isLoading := false, error := some "Failed to update note" }
  | .ok (db1, updatedNote) =>
    let s1 : SysState :=
      { s with
        db := db1,
        notes := s.notes.map (fun n => if n.idea_flash_id = flashId then updatedNote else n),
        isLoading := false, error := none, clock := s.clock + 2 }
    if isApiEnabled && isAuthenticated then
      if remoteFails then s1
      else
        let fid2 :=
          if updatedNote.idea_flash_id = "" then flashId else updatedNote.idea_flash_id
        let t :=
          match p.title with
          | some v => if v = "" then updatedNote.title else v
          | none => updatedNote.title
        let c :=
          match p.content with
          | some v => if v = "" then updatedNote.content else v
          | none => updatedNote.content
        { s1 with remote := remoteUpdatePost s1.remote fid2 t c }
    else s1

/-- `deleteNote` (store.ts lines 138-175): local delete first (which always
fulfills), filter the in-memory list, then best-effort `deletePost` against the
id found in the pre-delete snapshot; remote rejection is caught and logged. -/
def storeDeleteNote (isApiEnabled isAuthenticated : Bool) (remoteFails : Bool)
    (flashId : String) (s : SysState) : SysState :=
  let db1 := dbDeleteNote s.db flashId
  let s1 : SysState :=
    { s with
      db := db1,
      notes := s.notes.filter (fun n => ¬ (n.idea_flash_id = flashId)),
      isLoading := false, error := none }
  if isApiEnabled && isAuthenticated then
    if remoteFails then s1
    else
      let fid2 :=
        match s.notes.find? (fun n => n.idea_flash_id = flashId) with
        | some n => if n.idea_flash_id = "" then flashId else n.idea_flash_id
        | none => flashId
      { s1 with remote := remoteDeletePost s1.remote fid2 }
  else s1

/-! ## Reconciliation engine (`mergeWithApi`, store.ts lines 206-334)

The pass reads its local set from the in-memory snapshot `get().notes`, not
from a fresh store read.  Phase 1 adopts remote-only notes into the record
store; a rejection there propagates to the outer catch, aborting the pass with
an error.  Phase 2 pushes local notes (re-keying anonymous ones); each push has
its own catch, so a rejection skips that note's local delete and continues.
Phase 3 re-fetches the remote set, clears the store and re-adds every remote
note; a rejection inside this phase is caught by its own handler, leaving the
partially rebuilt store.  Finally `loadNotes` reloads the in-memory list. -/

/-- Phase 1 (store.ts lines 227-240): for each fetched remote note with no
match in the in-memory snapshot, `database.addNote`; the boolean records
whether the phase completed without a rejection. -/
def adoptRemote (mem : List Note) : List RNote → List Note → Nat → Bool × List Note × Nat
  | [], db, c => (true, db, c)
  | a :: rest, db, c =>
    if mem.any (fun n => n.idea_flash_id = a.idea_flash_id) then
      adoptRemote mem rest db c
    else
      match dbAddNote db a.title a.content a.idea_flash_id c with
      | .ok (db1, _) => adoptRemote mem rest db1 (c + 1)
      | .error _ => (false, db, c)

/-- Phase 2 (store.ts lines 243-294): anonymous local notes are pushed under a
freshly minted user-scoped id, other local notes absent from the fetched remote
set are pushed under their own id; a successful push is followed by the local
delete, a rejected push (id in `failSet`) is caught and the note skipped. -/
def pushLocal (apiNotes : List RNote) (failSet : List String) (uid : String) :
    List Note → List Note → List RNote → Nat → List Note × List RNote × Nat
  | [], db, remote, c => (db, remote, c)
  | n :: rest, db, remote, c =>
    if isAnonymousNote n then
      let newId := generateIdeaFlashId c (some uid)
      if failSet.contains newId then
        pushLocal apiNotes failSet uid rest db remote (c + 1)
      else
        pushLocal apiNotes failSet uid rest (dbDeleteNote db n.idea_flash_id)
          (remoteCreatePost remote ⟨n.title, n.content, newId⟩) (c + 1)
    else if apiNotes.any (fun x => x.idea_flash_id = n.idea_flash_id) then
      pushLocal apiNotes failSet uid rest db remote c
    else if failSet.contains n.idea_flash_id then
      pushLocal apiNotes failSet uid rest db remote c
    else
      pushLocal apiNotes failSet uid rest (dbDeleteNote db n.idea_flash_id)
        (remoteCreatePost remote ⟨n.title, n.content, n.idea_flash_id⟩) c

/-- Phase 3 rebuild loop (store.ts lines 305-311): add every re-fetched remote
note; a rejection aborts the loop (caught by the surrounding refetch catch),
keeping the records added so far. -/
def rebuildFromRemote : List RNote → List Note → Nat → List Note × Nat
  | [], db, c => (db, c)
  | a :: rest, db, c =>
    match dbAddNote db a.title a.content a.idea_flash_id c with
    | .ok (db1, _) => rebuildFromRemote rest db1 (c + 1)
    | .error _ => (db, c)

/-- `mergeWithApi` (store.ts lines 206-334).  The guard mirrors
`!isApiEnabled || !isAuthenticated || !user?.id` (an empty user id is falsy).
`api.getPosts()` yields the remote service's current note list. -/
def mergeWithApi (isApiEnabled isAuthenticated : Bool) (user : Option String)
    (failSet : List String) (s : SysState) : SysState :=
  match user with
  | none => s
  | some uid =>
    if ¬ isApiEnabled ∨ ¬ isAuthenticated ∨ uid = "" then s
    else
      match adoptRemote s.notes s.remote s.db s.clock with
      | (false, db1, c1) =>
        { s with
          db := db1, clock := c1, isLoading := false,
          error := some "Merge failed" }
      | (true, db1, c1) =>
        let step2 := pushLocal s.remote failSet uid s.notes db1 s.remote c1
        let remote2 := step2.2.1
        let step3 := rebuildFromRemote remote2 (dbClearAllNotes step2.1) step2.2.2
        let s1 : SysState :=
          { db := step3.1, notes := s.notes, error := none, isLoading := true,
            remote := remote2, clock := step3.2 }
        let s2 := loadNotes s1
        { s2 with isLoading := false }

/-- The record built by `dbAddNote` for given inputs. -/
def mkStoredNote (title content flashId : String) (now : Nat) : Note :=
  { id := flashId, title := title, content := content,
    created_at := now, updated_at := now, idea_flash_id := flashId }



/-! ## Concrete states used by the closed theorems and witnesses -/

/-- A valid local-only, non-anonymous note. -/
def nLocalOnly : Note :=
  { id := "5_u", title := "t", content := "c", created_at := 5, updated_at := 5,
    idea_flash_id := "5_u" }

/-- Local store holding one local-only note, empty remote set. -/
def sLocalOnly : SysState :=
  { db := [nLocalOnly], notes := [nLocalOnly], error := none, isLoading := false,
    remote := [], clock := 10 }

/-- The anonymous note of the spec's concrete scenario. -/
def nAnon : Note :=
  { id := "1700000000000_anonymous", title := "", content := "buy milk",
    created_at := 1700000000000, updated_at := 1700000000000,
    idea_flash_id := "1700000000000_anonymous" }

/-- State of the spec's concrete scenario: one anonymous local note, empty
remote set. -/
def sAnon : SysState :=
  { db := [nAnon], notes := [nAnon], error := none, isLoading := false,
    remote := [], clock := 1700000000042 }

/-- A note present in the record store but absent from the in-memory snapshot
and from the remote set. -/
def nGhost : Note :=
  { id := "1_u", title := "ghost", content := "only in db", created_at := 1,
    updated_at := 1, idea_flash_id := "1_u" }

/-- A note present locally and remotely under the same portable id. -/
def nShared : Note :=
  { id := "2_u", title := "shared", content := "both", created_at := 2,
    updated_at := 2, idea_flash_id := "2_u" }

/-- State whose record store holds a note the in-memory snapshot does not. -/
def sGhost : SysState :=
  { db := [nGhost, nShared], notes := [nShared], error := none, isLoading := false,
    remote := [⟨"shared", "both", "2_u"⟩], clock := 10 }

/-- In-sync state: store, snapshot and remote all hold the same single note. -/
def sConv : SysState :=
  { db := [nShared], notes := [nShared], error := none, isLoading := false,
    remote := [⟨"shared", "both", "2_u"⟩], clock := 10 }

/-- First local-only note of the push-failure scenario (its push will fail). -/
def nPushA : Note :=
  { id := "6_u", title := "first", content := "fails", created_at := 6,
    updated_at := 6, idea_flash_id := "6_u" }

/-- Second local-only note of the push-failure scenario (processed after the
failed push). -/
def nPushB : Note :=
  { id := "7_u", title := "second", content := "survives", created_at := 7,
    updated_at := 7, idea_flash_id := "7_u" }

/-- State with two local-only notes and an empty remote set. -/
def sPush : SysState :=
  { db := [nPushA, nPushB], notes := [nPushA, nPushB], error := none,
    isLoading := false, remote := [], clock := 20 }

/-- An existing record for the coordinator witness. -/
def nCoord : Note :=
  { id := "9_u", title := "old", content := "body", created_at := 2, updated_at := 2,
    idea_flash_id := "9_u" }

/-- Coordinator state with one stored note mirrored in memory and remotely. -/
def sCoord : SysState :=
  { db := [nCoord], notes := [nCoord], error := none, isLoading := false,
    remote := [⟨"old", "body", "9_u"⟩], clock := 3 }

/-- A stored record with non-blank title, used by the update theorems. -/
def nUpd : Note :=
  { id := "a", title := "t", content := "c", created_at := 1, updated_at := 1,
    idea_flash_id := "a" }

/-- Single-record store for the update theorems. -/
def dbUpd : List Note := [nUpd]

/-- A record whose timestamps coincide, for the same-instant update. -/
def nSame : Note :=
  { id := "a", title := "t", content := "c", created_at := 7, updated_at := 7,
    idea_flash_id := "a" }

/-- Two records with distinct creation timestamps, for the ordering theorems. -/
def dbOrd : List Note :=
  [{ id := "x1", title := "older", content := "1", created_at := 1, updated_at := 1,
     idea_flash_id := "x1" },
   { id := "x2", title := "newer", content := "2", created_at := 5, updated_at := 5,
     idea_flash_id := "x2" }]

theorem dbAddNote_ok (db : List Note) (title content flashId : String) (now : Nat)
    (hv : validateNoteOk (some title) (some content) = true)
    (hf : db.any (fun n => n.idea_flash_id = flashId) = false) :
    dbAddNote db title content flashId now =
      .ok (db ++ [mkStoredNote title content flashId now],
           mkStoredNote title content flashId now) := by
  unfold dbAddNote
  rw [if_neg (by simp [hv]), if_neg (by simp [hf])]
  rfl

theorem remoteCreatePost_map_rfid_of_mem (R : List RNote) (r : RNote)
    (h : R.any (fun x => x.idea_flash_id = r.idea_flash_id) = true) :
    (remoteCreatePost R r).map rfid = R.map rfid := by
  unfold remoteCreatePost
  rw [if_pos h, List.map_map]
  refine List.map_congr_left (fun x _ => ?_)
  by_cases hx : x.idea_flash_id = r.idea_flash_id <;>
    simp [rfid, hx, Function.comp]

theorem remoteCreatePost_map_rfid_of_not_mem (R : List RNote) (r : RNote)
    (h : R.any (fun x => x.idea_flash_id = r.idea_flash_id) = false) :
    (remoteCreatePost R r).map rfid = R.map rfid ++ [r.idea_flash_id] := by
  unfold remoteCreatePost
  rw [if_neg (by simp [h]), List.map_append]
  rfl

theorem mem_rfid_remoteCreatePost (R : List RNote) (r : RNote) (x : String)
    (h : x ∈ R.map rfid) : x ∈ (remoteCreatePost R r).map rfid := by
  cases hc : R.any (fun y => y.idea_flash_id = r.idea_flash_id) with
  | true => rw [remoteCreatePost_map_rfid_of_mem R r hc]; exact h
  | false =>
    rw [remoteCreatePost_map_rfid_of_not_mem R r hc]
    exact List.mem_append_left _ h

theorem rfid_mem_remoteCreatePost (R : List RNote) (r : RNote) :
    r.idea_flash_id ∈ (remoteCreatePost R r).map rfid := by
  cases hc : R.any (fun y => y.idea_flash_id = r.idea_flash_id) with
  | true =>
    rw [remoteCreatePost_map_rfid_of_mem R r hc]
    rcases List.any_eq_true.mp hc with ⟨y, hy, hyy⟩
    have : r.idea_flash_id = rfid y := by
      simpa [rfid] using (of_decide_eq_true hyy).symm
    rw [this]
    exact List.mem_map_of_mem rfid hy
  | false =>
    rw [remoteCreatePost_map_rfid_of_not_mem R r hc]
    simp

theorem remoteCreatePost_rfid_nodup (R : List RNote) (r : RNote)
    (h : (R.map rfid).Nodup) : ((remoteCreatePost R r).map rfid).Nodup := by
  cases hc : R.any (fun y => y.idea_flash_id = r.idea_flash_id) with
  | true => rw [remoteCreatePost_map_rfid_of_mem R r hc]; exact h
  | false =>
    rw [remoteCreatePost_map_rfid_of_not_mem R r hc]
    have hni : r.idea_flash_id ∉ R.map rfid := by
      intro hmem
      rcases List.mem_map.mp hmem with ⟨y, hy, hyy⟩
      have : R.any (fun y => y.idea_flash_id = r.idea_flash_id) = true :=
        List.any_eq_true.mpr ⟨y, hy, decide_eq_true (by simpa [rfid] using hyy)⟩
      rw [hc] at this
      exact Bool.false_ne_true this
    simp [List.nodup_append, hni, h]

theorem remoteCreatePost_valid (R : List RNote) (r : RNote)
    (hR : ∀ x ∈ R, validR x = true) (hr : validR r = true) :
    ∀ x ∈ remoteCreatePost R r, validR x = true := by
  intro x hx
  unfold remoteCreatePost at hx
  cases hc : R.any (fun y => y.idea_flash_id = r.idea_flash_id) with
  | true =>
    rw [if_pos hc] at hx
    rcases List.mem_map.mp hx with ⟨y, hy, hyy⟩
    by_cases hxy : y.idea_flash_id = r.idea_flash_id
    · rw [if_pos hxy] at hyy; exact hyy ▸ hr
    · rw [if_neg hxy] at hyy; exact hyy ▸ hR y hy
  | false =>
    rw [if_neg (by simp [hc])] at hx
    rcases List.mem_append.mp hx with hx | hx
    · exact hR x hx
    · simp at hx; exact hx ▸ hr

end IdeaFlash

namespace IdeaFlash

theorem pushLocal_remote_invariant (apiNotes : List RNote) (failSet : List String)
    (uid : String) :
    ∀ (locals db : List Note) (remote : List RNote) (c : Nat),
    (∀ x ∈ remote, validR x = true) → (∀ n ∈ locals, validN n = true) →
    (remote.map rfid).Nodup →
    (∀ x ∈ (pushLocal apiNotes failSet uid locals db remote c).2.1, validR x = true) ∧
    ((pushLocal apiNotes failSet uid locals db remote c).2.1.map rfid).Nodup := by
  intro locals
  induction locals with
  | nil =>
    intro db remote c hv _ hnd
    exact ⟨fun x hx => hv x (by simpa [pushLocal] using hx), by simpa [pushLocal] using hnd⟩
  | cons n rest ih =>
    intro db remote c hv hl hnd
    have hn : validN n = true := hl n (List.mem_cons_self _ _)
    have hrest : ∀ m ∈ rest, validN m = true := fun m hm => hl m (List.mem_cons_of_mem _ hm)
    have hpush : ∀ (r : RNote), r.title = n.title → r.content = n.content →
        validR r = true := by
      intro r h1 h2
      simpa [validR, validN, h1, h2] using hn
    by_cases ha : isAnonymousNote n = true
    · by_cases hf : generateIdeaFlashId c (some uid) ∈ failSet
      · simpa [pushLocal, ha, hf] using ih db remote (c + 1) hv hrest hnd
      · have hv' := remoteCreatePost_valid remote
          ⟨n.title, n.content, generateIdeaFlashId c (some uid)⟩ hv (hpush _ rfl rfl)
        have hnd' := remoteCreatePost_rfid_nodup remote
          ⟨n.title, n.content, generateIdeaFlashId c (some uid)⟩ hnd
        simpa [pushLocal, ha, hf] using
          ih (dbDeleteNote db n.idea_flash_id) _ (c + 1) hv' hrest hnd'
    · by_cases hapi : ∃ x ∈ apiNotes, x.idea_flash_id = n.idea_flash_id
      · simpa [pushLocal, ha, hapi] using ih db remote c hv hrest hnd
      · by_cases hf : n.idea_flash_id ∈ failSet
        · simpa [pushLocal, ha, hapi, hf] using ih db remote c hv hrest hnd
        · have hv' := remoteCreatePost_valid remote
            ⟨n.title, n.content, n.idea_flash_id⟩ hv (hpush _ rfl rfl)
          have hnd' := remoteCreatePost_rfid_nodup remote
            ⟨n.title, n.content, n.idea_flash_id⟩ hnd
          simpa [pushLocal, ha, hapi, hf] using
            ih (dbDeleteNote db n.idea_flash_id) _ c hv' hrest hnd'

theorem pushLocal_rfid_monotone (apiNotes : List RNote) (failSet : List String)
    (uid : String) :
    ∀ (locals db : List Note) (remote : List RNote) (c : Nat) (x : String),
    x ∈ remote.map rfid →
    x ∈ (pushLocal apiNotes failSet uid locals db remote c).2.1.map rfid := by
  intro locals
  induction locals with
  | nil => intro db remote c x hx; simpa [pushLocal] using hx
  | cons n rest ih =>
    intro db remote c x hx
    by_cases ha : isAnonymousNote n = true
    · by_cases hf : generateIdeaFlashId c (some uid) ∈ failSet
      · simpa [pushLocal, ha, hf] using ih db remote (c + 1) x hx
      · simpa [pushLocal, ha, hf] using
          ih (dbDeleteNote db n.idea_flash_id) _ (c + 1) x
            (mem_rfid_remoteCreatePost remote _ x hx)
    · by_cases hapi : ∃ y ∈ apiNotes, y.idea_flash_id = n.idea_flash_id
      · simpa [pushLocal, ha, hapi] using ih db remote c x hx
      · by_cases hf : n.idea_flash_id ∈ failSet
        · simpa [pushLocal, ha, hapi, hf] using ih db remote c x hx
        · simpa [pushLocal, ha, hapi, hf] using
            ih (dbDeleteNote db n.idea_flash_id) _ c x
              (mem_rfid_remoteCreatePost remote _ x hx)

theorem pushLocal_pushes_local_only (apiNotes : List RNote) (failSet : List String)
    (uid : String) :
    ∀ (locals db : List Note) (remote : List RNote) (c : Nat) (n : Note),
    n ∈ locals → isAnonymousNote n = false →
    (∀ x ∈ apiNotes, ¬ (x.idea_flash_id = n.idea_flash_id)) →
    n.idea_flash_id ∉ failSet →
    n.idea_flash_id ∈ (pushLocal apiNotes failSet uid locals db remote c).2.1.map rfid := by
  intro locals
  induction locals with
  | nil => intro db remote c n hn; exact absurd hn (List.not_mem_nil n)
  | cons m rest ih =>
    intro db remote c n hn ha hapi hf
    rcases List.mem_cons.mp hn with rfl | hn'
    · have ha' : ¬ (isAnonymousNote n = true) := by simp [ha]
      have hapi' : ¬ ∃ x ∈ apiNotes, x.idea_flash_id = n.idea_flash_id := by
        rintro ⟨x, hx, hxx⟩; exact hapi x hx hxx
      simp only [pushLocal]
      rw [if_neg ha']
      rw [if_neg (by simpa using hapi'), if_neg (by simpa using hf)]
      exact pushLocal_rfid_monotone apiNotes failSet uid rest _ _ c _
        (rfid_mem_remoteCreatePost remote ⟨n.title, n.content, n.idea_flash_id⟩)
    · by_cases hma : isAnonymousNote m = true
      · by_cases hmf : generateIdeaFlashId c (some uid) ∈ failSet
        · simpa [pushLocal, hma, hmf] using ih db remote (c + 1) n hn' ha hapi hf
        · simpa [pushLocal, hma, hmf] using
            ih (dbDeleteNote db m.idea_flash_id) _ (c + 1) n hn' ha hapi hf
      · by_cases hmapi : ∃ y ∈ apiNotes, y.idea_flash_id = m.idea_flash_id
        · simpa [pushLocal, hma, hmapi] using ih db remote c n hn' ha hapi hf
        · by_cases hmf : m.idea_flash_id ∈ failSet
          · simpa [pushLocal, hma, hmapi, hmf] using ih db remote c n hn' ha hapi hf
          · simpa [pushLocal, hma, hmapi, hmf] using
              ih (dbDeleteNote db m.idea_flash_id) _ c n hn' ha hapi hf

theorem adoptRemote_ok (mem : List Note) :
    ∀ (R : List RNote) (db : List Note) (c : Nat),
    (∀ a ∈ R, validR a = true) → (R.map rfid).Nodup →
    (∀ x ∈ db, x.idea_flash_id ∈ mem.map nfid ∨ x.idea_flash_id ∉ R.map rfid) →
    (adoptRemote mem R db c).1 = true := by
  intro R
  induction R with
  | nil => intro db c _ _ _; simp [adoptRemote]
  | cons a rest ih =>
    intro db c hv hnd hinv
    have hva : validR a = true := hv a (List.mem_cons_self _ _)
    have hvrest : ∀ b ∈ rest, validR b = true := fun b hb => hv b (List.mem_cons_of_mem _ hb)
    have hpair : (∀ x ∈ rest, ¬ x.idea_flash_id = a.idea_flash_id) ∧ (rest.map rfid).Nodup := by
      simpa [rfid] using hnd
    have hhd : a.idea_flash_id ∉ rest.map rfid := by
      intro hm
      rcases List.mem_map.mp hm with ⟨x, hx, hxx⟩
      exact hpair.1 x hx (by simpa [rfid] using hxx)
    have hndrest : (rest.map rfid).Nodup := hpair.2
    by_cases hmem : ∃ x ∈ mem, x.idea_flash_id = a.idea_flash_id
    · have hinv' : ∀ x ∈ db, x.idea_flash_id ∈ mem.map nfid ∨ x.idea_flash_id ∉ rest.map rfid := by
        intro x hx
        rcases hinv x hx with h | h
        · exact Or.inl h
        · exact Or.inr (fun hmem2 => h (by simp [rfid] at *; exact Or.inr hmem2))
      simpa [adoptRemote, hmem] using ih db c hvrest hndrest hinv'
    · have hany : db.any (fun n => n.idea_flash_id = a.idea_flash_id) = false := by
        rw [Bool.eq_false_iff]
        intro hany
        rcases List.any_eq_true.mp hany with ⟨x, hx, hxa⟩
        have hxa' : x.idea_flash_id = a.idea_flash_id := of_decide_eq_true hxa
        rcases hinv x hx with h | h
        · rcases List.mem_map.mp h with ⟨m, hm, hmx⟩
          exact hmem ⟨m, hm, by simpa [nfid, hxa'] using hmx⟩
        · exact h (by simp [rfid, hxa'])
      have hval : validateNoteOk (some a.title) (some a.content) = true := hva
      simp only [adoptRemote]
      rw [if_neg (by simpa using hmem), dbAddNote_ok db a.title a.content a.idea_flash_id c hval hany]
      apply ih (db ++ [mkStoredNote a.title a.content a.idea_flash_id c]) (c + 1) hvrest hndrest
      intro x hx
      rcases List.mem_append.mp hx with hx | hx
      · rcases hinv x hx with h | h
        · exact Or.inl h
        · refine Or.inr (fun hmem2 => h ?_)
          simp [rfid] at *
          exact Or.inr hmem2
      · have hx' : x = mkStoredNote a.title a.content a.idea_flash_id c := by simpa using hx
        refine Or.inr ?_
        rw [hx']
        simpa [mkStoredNote, rfid] using hhd

theorem rebuildFromRemote_proj :
    ∀ (R : List RNote) (db : List Note) (c : Nat),
    (∀ a ∈ R, validR a = true) → (R.map rfid).Nodup →
    (∀ a ∈ R, a.idea_flash_id ∉ db.map nfid) →
    (rebuildFromRemote R db c).1.map proj = db.map proj ++ R.map projR := by
  intro R
  induction R with
  | nil => intro db c _ _ _; simp [rebuildFromRemote]
  | cons a rest ih =>
    intro db c hv hnd hdisj
    have hva : validR a = true := hv a (List.mem_cons_self _ _)
    have hvrest : ∀ b ∈ rest, validR b = true := fun b hb => hv b (List.mem_cons_of_mem _ hb)
    have hpair : (∀ x ∈ rest, ¬ x.idea_flash_id = a.idea_flash_id) ∧ (rest.map rfid).Nodup := by
      simpa [rfid] using hnd
    have hhd : a.idea_flash_id ∉ rest.map rfid := by
      intro hm
      rcases List.mem_map.mp hm with ⟨x, hx, hxx⟩
      exact hpair.1 x hx (by simpa [rfid] using hxx)
    have hndrest : (rest.map rfid).Nodup := hpair.2
    have hany : db.any (fun n => n.idea_flash_id = a.idea_flash_id) = false := by
      rw [Bool.eq_false_iff]
      intro hany
      rcases List.any_eq_true.mp hany with ⟨x, hx, hxa⟩
      have hxa' : x.idea_flash_id = a.idea_flash_id := of_decide_eq_true hxa
      exact hdisj a (List.mem_cons_self _ _)
        (List.mem_map.mpr ⟨x, hx, by simpa [nfid] using hxa'⟩)
    simp only [rebuildFromRemote]
    rw [dbAddNote_ok db a.title a.content a.idea_flash_id c hva hany]
    rw [ih (db ++ [mkStoredNote a.title a.content a.idea_flash_id c]) (c + 1) hvrest hndrest ?_]
    · simp [mkStoredNote, proj, projR]
    · intro b hb
      rw [List.map_append]
      intro hmem
      rcases List.mem_append.mp hmem with h | h
      · exact hdisj b (List.mem_cons_of_mem _ hb) h
      · have hb' : b.idea_flash_id = a.idea_flash_id := by
          simpa [mkStoredNote, nfid] using h
        exact hhd (hb' ▸ List.mem_map.mpr ⟨b, hb, rfl⟩)

/-- Claim C1 (amended): after a reconciliation pass with no push failures, the
local store's note set exactly equals the remote set as it stands after the
pass (the initial remote set R as updated by the successful pushes: anonymous
local notes under freshly minted user-scoped ids, other local notes absent
from R under their own ids).  Hypotheses: the remote notes are valid with
pairwise distinct portable ids, the in-memory notes are valid, and every
stored record's portable id appears in the in-memory snapshot.  The final
store matches the final remote set note for note, has no duplicate portable
ids, and the in-memory list is a permutation of the store. -/
theorem merge_converges_to_remote (s : SysState) (uid : String)
    (huid : uid ≠ "")
    (hR : ∀ a ∈ s.remote, validR a = true)
    (hRnd : (s.remote.map rfid).Nodup)
    (hmem : ∀ n ∈ s.notes, validN n = true)
    (hdb : ∀ x ∈ s.db, x.idea_flash_id ∈ s.notes.map nfid) :
    (mergeWithApi true true (some uid) [] s).error = none ∧
    (mergeWithApi true true (some uid) [] s).db.map proj =
      (mergeWithApi true true (some uid) [] s).remote.map projR ∧
    ((mergeWithApi true true (some uid) [] s).db.map nfid).Nodup ∧
    ((mergeWithApi true true (some uid) [] s).notes).Perm
      ((mergeWithApi true true (some uid) [] s).db) := by
  have hinv : ∀ x ∈ s.db, x.idea_flash_id ∈ s.notes.map nfid ∨ x.idea_flash_id ∉ s.remote.map rfid :=
    fun x hx => Or.inl (hdb x hx)
  have hok := adoptRemote_ok s.notes s.remote s.db s.clock hR hRnd hinv
  rcases hA : adoptRemote s.notes s.remote s.db s.clock with ⟨b, db1, c1⟩
  rw [hA] at hok
  simp only at hok
  subst hok
  rcases hP : pushLocal s.remote [] uid s.notes db1 s.remote c1 with ⟨db2, remote2, c2⟩
  have hPI := pushLocal_remote_invariant s.remote [] uid s.notes db1 s.remote c1 hR hmem hRnd
  rw [hP] at hPI
  simp only at hPI
  have hdisj : ∀ a ∈ remote2, a.idea_flash_id ∉ (dbClearAllNotes db2).map nfid := by
    intro a _ h
    simp [dbClearAllNotes] at h
  have hRB := rebuildFromRemote_proj remote2 (dbClearAllNotes db2) c2 hPI.1 hPI.2 hdisj
  rcases hB : rebuildFromRemote remote2 (dbClearAllNotes db2) c2 with ⟨db3, c3⟩
  rw [hB] at hRB
  simp only [dbClearAllNotes, List.map_nil, List.nil_append] at hRB
  have hm : mergeWithApi true true (some uid) [] s =
      { db := db3, notes := sortNotesDesc db3, error := none, isLoading := false,
        remote := remote2, clock := c3 } := by
    simp only [mergeWithApi]
    rw [if_neg (by simp [huid])]
    rw [hA]
    simp only [loadNotes, dbGetNotes]
    rw [hP]
    simp only [dbClearAllNotes]
    rw [show rebuildFromRemote remote2 [] c2 = (db3, c3) from by
      simpa [dbClearAllNotes] using hB]
  rw [hm]
  refine ⟨rfl, hRB, ?_, List.perm_insertionSort _ db3⟩
  have hfid : db3.map nfid = remote2.map rfid := by
    have := congrArg (List.map Prod.fst) hRB
    simpa [List.map_map, Function.comp, proj, projR, nfid, rfid] using this
  rw [hfid]
  exact hPI.2

/-- Witness for C1: the amended convergence theorem applied to the in-sync
single-note state. -/
theorem merge_converges_to_remote_witness :
    (mergeWithApi true true (some "u") [] sConv).error = none ∧
    (mergeWithApi true true (some "u") [] sConv).db.map proj =
      (mergeWithApi true true (some "u") [] sConv).remote.map projR ∧
    ((mergeWithApi true true (some "u") [] sConv).db.map nfid).Nodup ∧
    ((mergeWithApi true true (some "u") [] sConv).notes).Perm
      ((mergeWithApi true true (some "u") [] sConv).db) :=
  merge_converges_to_remote sConv "u" (by decide) (by decide) (by decide)
    (by decide) (by decide)

/-- Counterexample for C1 as frozen: with one valid non-anonymous local-only
note and an empty remote set, the pass completes with no push failure, yet the
local store afterwards is not equal to the initial remote set R (the note was
pushed and re-adopted, so the local set equals the grown remote set instead). -/
theorem merge_local_ne_initial_remote_cex :
    (mergeWithApi true true (some "u") [] sLocalOnly).error = none ∧
    ¬ ((mergeWithApi true true (some "u") [] sLocalOnly).db.map proj =
        sLocalOnly.remote.map projR) := by decide

/-- Claim C2: from one anonymous local note `1700000000000_anonymous` (blank
title, content "buy milk") and an empty remote set, one reconciliation pass
leaves exactly one note remotely and locally, carrying the freshly minted
portable id `1700000000042_user42` (of the form `<ts>_<userId>`), and the old
anonymous portable id is present in neither. -/
theorem merge_anonymous_scenario :
    (mergeWithApi true true (some "user42") [] sAnon).error = none ∧
    (mergeWithApi true true (some "user42") [] sAnon).remote =
      [⟨"", "buy milk", "1700000000042_user42"⟩] ∧
    (mergeWithApi true true (some "user42") [] sAnon).db.map proj =
      [("1700000000042_user42", "", "buy milk")] ∧
    (mergeWithApi true true (some "user42") [] sAnon).notes.map proj =
      [("1700000000042_user42", "", "buy milk")] ∧
    "1700000000042_user42" = generateIdeaFlashId 1700000000042 (some "user42") ∧
    "1700000000000_anonymous" ∉
      (mergeWithApi true true (some "user42") [] sAnon).remote.map rfid ∧
    "1700000000000_anonymous" ∉
      (mergeWithApi true true (some "user42") [] sAnon).db.map nfid := by decide

/-- Claim C3: a rejected push of a local-only note neither propagates to the
caller (the pass ends with no error) nor aborts the loop: every local
non-anonymous note absent from the fetched remote set whose own push is not the
failing one still ends up pushed to the remote service. -/
theorem merge_push_failure_best_effort (s : SysState) (uid : String)
    (failSet : List String)
    (huid : uid ≠ "")
    (hR : ∀ a ∈ s.remote, validR a = true)
    (hRnd : (s.remote.map rfid).Nodup)
    (hdb : ∀ x ∈ s.db, x.idea_flash_id ∈ s.notes.map nfid) :
    (mergeWithApi true true (some uid) failSet s).error = none ∧
    (∀ n ∈ s.notes, isAnonymousNote n = false →
      (∀ a ∈ s.remote, ¬ (a.idea_flash_id = n.idea_flash_id)) →
      n.idea_flash_id ∉ failSet →
      n.idea_flash_id ∈ (mergeWithApi true true (some uid) failSet s).remote.map rfid) := by
  have hinv : ∀ x ∈ s.db, x.idea_flash_id ∈ s.notes.map nfid ∨ x.idea_flash_id ∉ s.remote.map rfid :=
    fun x hx => Or.inl (hdb x hx)
  have hok := adoptRemote_ok s.notes s.remote s.db s.clock hR hRnd hinv
  rcases hA : adoptRemote s.notes s.remote s.db s.clock with ⟨b, db1, c1⟩
  rw [hA] at hok
  simp only at hok
  subst hok
  rcases hP : pushLocal s.remote failSet uid s.notes db1 s.remote c1 with ⟨db2, remote2, c2⟩
  rcases hB : rebuildFromRemote remote2 (dbClearAllNotes db2) c2 with ⟨db3, c3⟩
  have hm : mergeWithApi true true (some uid) failSet s =
      { db := db3, notes := sortNotesDesc db3, error := none, isLoading := false,
        remote := remote2, clock := c3 } := by
    simp only [mergeWithApi]
    rw [if_neg (by simp [huid])]
    rw [hA]
    simp only [loadNotes, dbGetNotes]
    rw [hP]
    simp only [dbClearAllNotes]
    rw [show rebuildFromRemote remote2 [] c2 = (db3, c3) from by
      simpa [dbClearAllNotes] using hB]
  rw [hm]
  refine ⟨rfl, ?_⟩
  intro n hn ha hapi hf
  have hmem := pushLocal_pushes_local_only s.remote failSet uid s.notes db1 s.remote c1
    n hn ha hapi hf
  rw [hP] at hmem
  simpa using hmem

/-- Witness for C3: two local-only notes, the first one's push rejects; the
pass ends error-free and the second note is pushed regardless. -/
theorem merge_push_failure_best_effort_witness :
    (mergeWithApi true true (some "u") ["6_u"] sPush).error = none ∧
    "7_u" ∈ (mergeWithApi true true (some "u") ["6_u"] sPush).remote.map rfid :=
  ⟨(merge_push_failure_best_effort sPush "u" ["6_u"] (by decide) (by decide)
      (by decide) (by decide)).1,
   (merge_push_failure_best_effort sPush "u" ["6_u"] (by decide) (by decide)
      (by decide) (by decide)).2 nPushB (by decide) (by decide) (by decide)
      (by decide)⟩

/-- Claim C10: the pass takes its local set from the in-memory snapshot, not
from a fresh store read: in a state whose record store holds a valid
non-anonymous note absent from both the snapshot and the remote set, the pass
completes, never pushes that note, and the clear-and-rebuild step removes it
from the store (and hence from the reloaded in-memory list). -/
theorem merge_uses_memory_snapshot :
    nGhost ∈ sGhost.db ∧ isAnonymousNote nGhost = false ∧
    nGhost.idea_flash_id ∉ sGhost.notes.map nfid ∧
    nGhost.idea_flash_id ∉ sGhost.remote.map rfid ∧
    (mergeWithApi true true (some "u") [] sGhost).error = none ∧
    nGhost.idea_flash_id ∉ (mergeWithApi true true (some "u") [] sGhost).remote.map rfid ∧
    nGhost.idea_flash_id ∉ (mergeWithApi true true (some "u") [] sGhost).db.map nfid ∧
    nGhost.idea_flash_id ∉ (mergeWithApi true true (some "u") [] sGhost).notes.map nfid := by
  decide

/-- Claim C4: for add, update and delete in the coordinator, performed
authenticated with the remote client configured, a rejected remote call
(`remoteFails = true`) leaves the action successful: the resulting state is
exactly the local-write result — no error surfaced, local write kept, the
in-memory list reflecting it, and the remote state untouched. -/
theorem store_remote_failure_local_first (s : SysState) (user : Option String)
    (title content flashId : String) (p : NotePatch) :
    (∀ db1 n1,
      dbAddNote s.db title content (generateIdeaFlashId s.clock user) (s.clock + 1) =
        .ok (db1, n1) →
      storeAddNote true true user true title content s =
        { s with
          db := db1, notes := n1 :: s.notes, isLoading := false,
          error := none, clock := s.clock + 2 }) ∧
    (∀ db1 n1, dbUpdateNote s.db flashId p (s.clock + 1) = .ok (db1, n1) →
      storeUpdateNote true true true flashId p s =
        { s with
          db := db1,
          notes := s.notes.map (fun n => if n.idea_flash_id = flashId then n1 else n),
          isLoading := false, error := none, clock := s.clock + 2 }) ∧
    storeDeleteNote true true true flashId s =
      { s with
        db := dbDeleteNote s.db flashId,
        notes := s.notes.filter (fun n => ¬ (n.idea_flash_id = flashId)),
        isLoading := false, error := none } := by
  refine ⟨?_, ?_, ?_⟩
  · intro db1 n1 h
    simp only [storeAddNote]
    rw [h]
    rfl
  · intro db1 n1 h
    simp only [storeUpdateNote]
    rw [h]
    rfl
  · rfl

/-- Witness for C4: all three coordinator actions on a concrete state with the
remote call rejecting. -/
theorem store_remote_failure_local_first_witness :
    (storeAddNote true true (some "u") true "hello" "world" sCoord).error = none ∧
    (storeAddNote true true (some "u") true "hello" "world" sCoord).notes.map proj =
      [("3_u", "hello", "world"), ("9_u", "old", "body")] ∧
    (storeAddNote true true (some "u") true "hello" "world" sCoord).remote = sCoord.remote ∧
    (storeUpdateNote true true true "9_u" { content := some "new" } sCoord).error = none ∧
    (storeUpdateNote true true true "9_u" { content := some "new" } sCoord).notes.map proj =
      [("9_u", "old", "new")] ∧
    (storeUpdateNote true true true "9_u" { content := some "new" } sCoord).remote =
      sCoord.remote ∧
    (storeDeleteNote true true true "9_u" sCoord).error = none ∧
    (storeDeleteNote true true true "9_u" sCoord).notes = [] ∧
    (storeDeleteNote true true true "9_u" sCoord).remote = sCoord.remote := by
  have h := store_remote_failure_local_first sCoord (some "u") "hello" "world" "9_u"
    { content := some "new" }
  have ha := h.1
    [nCoord, { id := "3_u", title := "hello", content := "world", created_at := 4,
               updated_at := 4, idea_flash_id := "3_u" }]
    { id := "3_u", title := "hello", content := "world", created_at := 4,
      updated_at := 4, idea_flash_id := "3_u" } (by decide)
  have hu := h.2.1
    [{ nCoord with content := "new", updated_at := 4 }]
    { nCoord with content := "new", updated_at := 4 } (by decide)
  have hd := h.2.2
  rw [ha, hu, hd]
  decide

/-- Counterexample for C5 as frozen: updating the record titled "t" with the
partial `{content := "   "}` merges to a record with a non-blank title, which
the claim says must succeed, yet the code rejects it with a validation error —
`updateNote` validates the supplied partial, not the merged result. -/
theorem update_rejects_valid_merge_cex :
    validateNoteOk (some nUpd.title) (some "   ") = true ∧
    dbUpdateNote dbUpd "a" { title := none, content := some "   " } 2 =
      .error .validation := by decide

/-- Claim C5 (amended): for an existing record, `updateNote` fails with a
validation error exactly when the supplied PARTIAL has both fields absent or
blank (which in particular covers every blank-blank merged result); when the
partial has a non-blank field, the update succeeds and returns the merge of the
partial over the existing record with a fresh `updated_at`. -/
theorem update_validation_on_patch (db : List Note) (flashId : String) (p : NotePatch)
    (now : Nat) (existing : Note)
    (hfind : db.find? (fun n => n.idea_flash_id = flashId) = some existing) :
    (validateNoteOk p.title p.content = false ↔
      dbUpdateNote db flashId p now = .error .validation) ∧
    (validateNoteOk p.title p.content = true →
      dbUpdateNote db flashId p now =
        .ok (db.map (fun n => if n.idea_flash_id = flashId then
              { existing with
                title := p.title.getD existing.title,
                content := p.content.getD existing.content,
                updated_at := now } else n),
             { existing with
               title := p.title.getD existing.title,
               content := p.content.getD existing.content,
               updated_at := now })) := by
  unfold dbUpdateNote
  cases hv : validateNoteOk p.title p.content with
  | false =>
    rw [if_pos (by simp [hv])]
    exact ⟨⟨fun _ => rfl, fun _ => rfl⟩, fun h => absurd h (by simp)⟩
  | true =>
    rw [if_neg (by simp [hv]), hfind]
    exact ⟨⟨fun h => absurd h (by simp), fun h => nomatch h⟩, fun _ => rfl⟩

/-- Witness for C5 (amended): a non-blank partial succeeds, an all-blank
partial is rejected, on the same stored record. -/
theorem update_validation_on_patch_witness :
    dbUpdateNote dbUpd "a" { title := some "T2" } 5 =
      .ok ([{ nUpd with title := "T2", updated_at := 5 }],
           { nUpd with title := "T2", updated_at := 5 }) ∧
    dbUpdateNote dbUpd "a" { title := none, content := none } 5 =
      .error .validation :=
  ⟨((update_validation_on_patch dbUpd "a" { title := some "T2" } 5 nUpd
      (by decide)).2 (by decide)).trans (by decide),
   (update_validation_on_patch dbUpd "a" { title := none, content := none } 5 nUpd
      (by decide)).1.mp (by decide)⟩

/-- Claim C6: on the wrapper keyed by a generated id, `addNote` with both
fields blank after trimming fails with a validation error (nothing reaches the
store), and with either field non-blank (and the generated id fresh, as
generation guarantees) it succeeds, returning the stored record carrying the
generated id and both timestamps. -/
theorem add_note_validation (db : List Note) (genId title content flashId : String)
    (now : Nat) :
    (validateNoteOk (some title) (some content) = false →
      libAddNote db genId title content flashId now = .error .validation) ∧
    (validateNoteOk (some title) (some content) = true →
      (∀ n ∈ db, ¬ (n.id = genId)) →
      libAddNote db genId title content flashId now =
        .ok (db ++ [{ id := genId, title := title, content := content,
                      created_at := now, updated_at := now, idea_flash_id := flashId }],
             { id := genId, title := title, content := content,
               created_at := now, updated_at := now, idea_flash_id := flashId })) := by
  constructor
  · intro hv
    unfold libAddNote
    rw [if_pos (by simp [hv])]
  · intro hv hfresh
    unfold libAddNote
    rw [if_neg (by simp [hv])]
    have hany : ¬ (db.any (fun n => n.id = genId) = true) := by
      intro hany
      rcases List.any_eq_true.mp hany with ⟨x, hx, hxx⟩
      exact hfresh x hx (of_decide_eq_true hxx)
    rw [if_neg hany]

/-- Witness for C6: a whitespace-only note is rejected; a note with a non-blank
title is stored with the generated id and timestamps. -/
theorem add_note_validation_witness :
    libAddNote [] "g1" " " "  " "f1" 3 = .error .validation ∧
    libAddNote [] "g1" "hi" "" "f1" 3 =
      .ok ([{ id := "g1", title := "hi", content := "", created_at := 3,
              updated_at := 3, idea_flash_id := "f1" }],
           { id := "g1", title := "hi", content := "", created_at := 3,
             updated_at := 3, idea_flash_id := "f1" }) :=
  ⟨(add_note_validation [] "g1" " " "  " "f1" 3).1 (by decide),
   ((add_note_validation [] "g1" "hi" "" "f1" 3).2 (by decide) (by decide)).trans
     (by decide)⟩

/-- Counterexample for C7 as frozen: on a one-record store, `getNotes 0`
returns that record instead of the claimed prefix of length `min 0 1 = 0` —
the cursor guard `!limit || count < limit` treats the limit `0` as "no limit"
by JS falsiness. -/
theorem get_notes_limit_zero_cex :
    (dbGetNotes dbUpd (some 0)).length = 1 ∧
    min 0 dbUpd.length = 0 ∧
    dbGetNotes dbUpd (some 0) ≠ List.take 0 (dbGetNotes dbUpd none) := by decide

/-- Claim C7 (amended): with pairwise distinct creation timestamps, `getNotes`
returns the records in strictly descending `created_at` order, and for a limit
`n ≥ 1` it returns the first `min n total` records of that ordering;
`getNotes 0` instead behaves as "no limit" and returns everything. -/
theorem get_notes_ordering (db : List Note) (k : Nat)
    (hdist : (db.map (fun n => n.created_at)).Nodup) :
    List.Pairwise (fun a b => b.created_at < a.created_at) (dbGetNotes db none) ∧
    (1 ≤ k → dbGetNotes db (some k) = (dbGetNotes db none).take k ∧
      (dbGetNotes db (some k)).length = min k db.length) ∧
    dbGetNotes db (some 0) = dbGetNotes db none := by
  have hperm : (sortNotesDesc db).Perm db := List.perm_insertionSort noteDescOrder db
  have hsorted : List.Pairwise noteDescOrder (sortNotesDesc db) :=
    List.sorted_insertionSort noteDescOrder db
  have hdist' : List.Pairwise (fun a b : Note => a.created_at ≠ b.created_at) db := by
    simpa [List.Nodup, List.pairwise_map] using hdist
  have hne : List.Pairwise (fun a b : Note => a.created_at ≠ b.created_at)
      (sortNotesDesc db) :=
    (List.Perm.pairwise_iff (fun h => h.symm) hperm).mpr hdist'
  refine ⟨?_, ?_, by simp [dbGetNotes]⟩
  · have hcomb := hsorted.and hne
    have hstrict : List.Pairwise (fun a b : Note => b.created_at < a.created_at)
        (sortNotesDesc db) :=
      hcomb.imp (fun hab => lt_of_le_of_ne hab.1 (Ne.symm hab.2))
    simpa [dbGetNotes] using hstrict
  · intro hk
    have hk0 : ¬ (k = 0) := by omega
    constructor
    · simp [dbGetNotes, hk0]
    · simp [dbGetNotes, hk0, List.length_take, hperm.length_eq]

/-- Witness for C7 (amended): two records with distinct timestamps come back
newest first, and limit 1 yields the length-1 prefix. -/
theorem get_notes_ordering_witness :
    List.Pairwise (fun a b => b.created_at < a.created_at) (dbGetNotes dbOrd none) ∧
    dbGetNotes dbOrd (some 1) = (dbGetNotes dbOrd none).take 1 ∧
    (dbGetNotes dbOrd (some 1)).length = min 1 dbOrd.length :=
  ⟨(get_notes_ordering dbOrd 1 (by decide)).1,
   ((get_notes_ordering dbOrd 1 (by decide)).2.1 (by decide)).1,
   ((get_notes_ordering dbOrd 1 (by decide)).2.1 (by decide)).2⟩

/-- Counterexample for C8 as frozen: updating a record in the same instant it
was last written stamps an `updated_at` equal to, not strictly greater than,
the prior value (`Date.now()` is read afresh but need not have advanced). -/
theorem update_same_instant_cex :
    dbUpdateNote [nSame] "a" { content := some "x" } 7 =
      .ok ([{ nSame with content := "x", updated_at := 7 }],
           { nSame with content := "x", updated_at := 7 }) ∧
    ¬ (nSame.updated_at < ({ nSame with content := "x", updated_at := 7 }).updated_at) := by
  decide

/-- Claim C8 (amended): a content-only update leaves `title`, `created_at`,
`id` and the portable id unchanged, sets `content` to the supplied value and
`updated_at` to the update's clock reading — strictly greater than the prior
value whenever the clock advanced since the prior write. -/
theorem update_preserves_fields (db : List Note) (flashId x : String) (existing : Note)
    (now : Nat)
    (hfind : db.find? (fun n => n.idea_flash_id = flashId) = some existing)
    (hx : jsTrim x ≠ "") :
    dbUpdateNote db flashId { content := some x } now =
      .ok (db.map (fun n => if n.idea_flash_id = flashId then
            { existing with content := x, updated_at := now } else n),
          { existing with content := x, updated_at := now }) ∧
    ({ existing with content := x, updated_at := now }).title = existing.title ∧
    ({ existing with content := x, updated_at := now }).created_at = existing.created_at ∧
    ({ existing with content := x, updated_at := now }).idea_flash_id =
      existing.idea_flash_id ∧
    ({ existing with content := x, updated_at := now }).updated_at = now ∧
    (existing.updated_at < now →
      existing.updated_at < ({ existing with content := x, updated_at := now }).updated_at) := by
  have hval : validateNoteOk ({ content := some x } : NotePatch).title
      ({ content := some x } : NotePatch).content = true := by
    simp [validateNoteOk, blankOpt, hx]
  refine ⟨?_, rfl, rfl, rfl, rfl, fun h => h⟩
  unfold dbUpdateNote
  rw [if_neg (fun hcon => hcon hval), hfind]
  rfl

/-- Witness for C8 (amended): a later-clock content update preserves the other
fields and strictly increases `updated_at`. -/
theorem update_preserves_fields_witness :
    dbUpdateNote dbUpd "a" { content := some "x" } 9 =
      .ok ([{ nUpd with content := "x", updated_at := 9 }],
           { nUpd with content := "x", updated_at := 9 }) ∧
    nUpd.updated_at < ({ nUpd with content := "x", updated_at := 9 }).updated_at :=
  ⟨((update_preserves_fields dbUpd "a" "x" nUpd 9 (by decide) (by decide)).1).trans
     (by decide),
   (update_preserves_fields dbUpd "a" "x" nUpd 9 (by decide) (by decide)).2.2.2.2.2
     (by decide)⟩

/-- Claim C9: `deleteNote` removes exactly the records carrying the given id,
never rejects (deleting an absent id is a no-op, so a second delete of the same
id changes nothing), and the coordinator's delete action ends error-free for
every id. -/
theorem delete_note_idempotent (db : List Note) (flashId : String) (s : SysState)
    (api auth rfail : Bool) :
    dbDeleteNote db flashId = db.filter (fun n => ¬ (n.idea_flash_id = flashId)) ∧
    dbDeleteNote (dbDeleteNote db flashId) flashId = dbDeleteNote db flashId ∧
    (flashId ∉ db.map nfid → dbDeleteNote db flashId = db) ∧
    (storeDeleteNote api auth rfail flashId s).error = none := by
  refine ⟨rfl, ?_, ?_, ?_⟩
  · simp [dbDeleteNote, List.filter_filter]
  · intro hni
    apply List.filter_eq_self.mpr
    intro a ha
    simp only [decide_eq_true_eq]
    intro he
    exact hni (List.mem_map.mpr ⟨a, ha, by simp [nfid, he]⟩)
  · cases api <;> cases auth <;> cases rfail <;> rfl

/-- Witness for C9: deleting an id absent from the store leaves it unchanged,
and the coordinator's delete of that id ends error-free. -/
theorem delete_note_idempotent_witness :
    dbDeleteNote dbUpd "zz" = dbUpd ∧
    (storeDeleteNote true true true "zz" sCoord).error = none :=
  ⟨(delete_note_idempotent dbUpd "zz" sCoord true true true).2.2.1 (by decide),
   (delete_note_idempotent dbUpd "zz" sCoord true true true).2.2.2⟩

end IdeaFlash
